import Mathlib

/-!
Verification development for the yangson repository: a shallow embedding of
the exception classes in `yangson/exceptions.py` and, for the parts of the
library whose implementation modules are not in the source tree, models
built from the specification (`spec.md`) pinned where possible by the
repository's own tests (`tests/test_model.py`).
-/

set_option maxRecDepth 4096

/-! ## Python object model for `yangson/exceptions.py`

Attribute dictionaries, attribute lookup, and the `__init__`/`__str__`
methods of the `ParserException` family are embedded directly.  An instance
is represented by its attribute dictionary (what `__init__` assigned);
`__str__` bodies are functions from that dictionary to `Except PyExc String`,
where `PyExc.attributeError` models Python's `AttributeError`.
-/

/-- Python runtime values that occur in the embedded exception classes. -/
inductive PyVal where
  | int (i : Int)
  | str (s : String)
  | tuple (elems : List PyVal)
  | pyNone
  | obj (attrs : List (String × PyVal))
deriving Repr

/-- An instance's attribute dictionary: what the `__init__` chain assigned. -/
abbrev PyDict := List (String × PyVal)

/-- Python exceptions that the embedded `__str__` bodies can raise. -/
inductive PyExc where
  | attributeError (name : String)
deriving Repr, DecidableEq

/-- Attribute lookup `self.name` on an instance of one of the exception
classes of `yangson/exceptions.py`: the instance dictionary is searched and a
missing name raises `AttributeError` (none of those classes declares a
class-level data attribute, so the instance dictionary is the only source). -/
def instGetattr (self : PyDict) (name : String) : Except PyExc PyVal :=
  match self.find? (fun kv => kv.fst == name) with
  | some kv => .ok kv.snd
  | none => .error (.attributeError name)

/-- Attribute lookup `value.name` on an arbitrary Python value: objects expose
their attribute dictionary, any other value has none of the attributes used
by the embedded code. -/
def pyValGetattr (v : PyVal) (name : String) : Except PyExc PyVal :=
  match v with
  | .obj attrs => instGetattr attrs name
  | _ => .error (.attributeError name)

/-- Model of Python's `str()` applied to a value (total, as in Python). -/
def pyStr (v : PyVal) : String :=
  match v with
  | .int i => toString i
  | .str s => s
  | .tuple _ => "<tuple>"
  | .pyNone => "None"
  | .obj _ => "<object>"

/-- Whether the Python string value contains a newline, as tested by
`"\n" in self.parser.input` in `ParserException.__str__`. -/
def pyStrContainsNewline (v : PyVal) : Bool :=
  match v with
  | .str s => s.data.contains '\n'
  | _ => false

/-- Rendering of `"line {0}, column {1}".format(*self.coord)` given the
value bound to `self.coord`. -/
def formatLineColumn (v : PyVal) : String :=
  match v with
  | .tuple [l, c] => "line " ++ pyStr l ++ ", column " ++ pyStr c
  | w => pyStr w

/-- `ParserException.__init__(self, coord)`: assigns only `self.coord`.
No constructor in `yangson/exceptions.py` ever assigns `self.parser`. -/
def ParserException.init (coord : Int × Int) : PyDict :=
  [("coord", PyVal.tuple [PyVal.int coord.1, PyVal.int coord.2])]

/-- `ParserException.__str__(self)`: reads `self.parser.input`, printing the
line/column coordinates when the parser input has a newline and the parser
itself otherwise. -/
def ParserException.strFn (self : PyDict) : Except PyExc String := do
  let p ← instGetattr self "parser"
  let inp ← pyValGetattr p "input"
  if pyStrContainsNewline inp then do
    let c ← instGetattr self "coord"
    pure (formatLineColumn c)
  else
    pure (pyStr p)

/-- Attribute lookup through `super()` from a direct subclass of
`ParserException`, restricted to string-returning methods: `__str__` resolves
to `ParserException.__str__`; no class in the method-resolution order
(`ParserException`, `YangsonException`, `Exception`, `BaseException`,
`object`) defines a method named `str`, so that name raises
`AttributeError`. -/
def superStrMethod (name : String) : Except PyExc (PyDict → Except PyExc String) :=
  if name == "__str__" then .ok ParserException.strFn
  else .error (.attributeError name)

/-- `EndOfInput` declares neither `__init__` nor `__str__`: both are
inherited from `ParserException`. -/
def EndOfInput.init (coord : Int × Int) : PyDict :=
  ParserException.init coord

/-- `InvalidFeatureExpression` inherits both methods from `ParserException`. -/
def InvalidFeatureExpression.init (coord : Int × Int) : PyDict :=
  ParserException.init coord

/-- `InvalidXPath` inherits both methods from `ParserException`. -/
def InvalidXPath.init (coord : Int × Int) : PyDict :=
  ParserException.init coord

/-- `UnexpectedInput.__init__(self, coord, expected=None)`: calls
`super().__init__(coord)` and assigns `self.expected`. -/
def UnexpectedInput.init (coord : Int × Int) (expected : Option String) : PyDict :=
  ParserException.init coord ++
    [("expected", match expected with | some s => PyVal.str s | none => PyVal.pyNone)]

/-- `UnexpectedInput.__str__(self)`: computes the `": expected ..."` suffix
from `self.expected`, then returns `super().__str__() + ex`. -/
def UnexpectedInput.strFn (self : PyDict) : Except PyExc String := do
  let exp ← instGetattr self "expected"
  let ex := match exp with
    | .pyNone => ""
    | v => ": expected " ++ pyStr v
  let m ← superStrMethod "__str__"
  let s ← m self
  pure (s ++ ex)

/-- `NotSupported.__init__(self, coord, feature)`: calls
`super().__init__(coord)` and assigns `self.feature`. -/
def NotSupported.init (coord : Int × Int) (feature : String) : PyDict :=
  ParserException.init coord ++ [("feature", PyVal.str feature)]

/-- `NotSupported.__str__(self)`: `return super().str() + ": " + str(self.feature)`
— it looks up a method named `str` (not `__str__`) through `super()`. -/
def NotSupported.strFn (self : PyDict) : Except PyExc String := do
  let m ← superStrMethod "str"
  let s ← m self
  let f ← instGetattr self "feature"
  pure (s ++ ": " ++ pyStr f)

/-- C10: for every `ParserException`-family instance as constructed by its
`__init__` (`ParserException`, `EndOfInput`, `UnexpectedInput`,
`InvalidFeatureExpression`, `InvalidXPath`, `NotSupported`), calling `str()`
raises `AttributeError` instead of returning the line/column coordinates:
`ParserException.__str__` reads `self.parser`, which no constructor assigns,
and `NotSupported.__str__` calls the nonexistent method `super().str()`. -/
theorem parserException_str_raises_attributeError
    (coord : Int × Int) (expected : Option String) (feature : String) :
    ParserException.strFn (ParserException.init coord)
        = .error (.attributeError "parser")
    ∧ ParserException.strFn (EndOfInput.init coord)
        = .error (.attributeError "parser")
    ∧ UnexpectedInput.strFn (UnexpectedInput.init coord expected)
        = .error (.attributeError "parser")
    ∧ ParserException.strFn (InvalidFeatureExpression.init coord)
        = .error (.attributeError "parser")
    ∧ ParserException.strFn (InvalidXPath.init coord)
        = .error (.attributeError "parser")
    ∧ NotSupported.strFn (NotSupported.init coord feature)
        = .error (.attributeError "str") := by
  refine ⟨rfl, rfl, ?_, rfl, rfl, rfl⟩
  cases expected <;> rfl

/-! ## Type system model (C2, C3, C4, C8)

The implementation module (`datatype.py`) is not part of the source tree;
the definitions below are modelled from the specification (§3 "Type",
§4.2 "Type System"), with behavior pinned where the repository's tests
(`tests/test_model.py`, `test_types`/`test_schema`) prescribe it.
-/

/-- Candidate scalar values offered to `contains`: the internal Python
representations a caller may pass (int, exact `Decimal` as a scaled integer
`m · 10 ^ (-s)`, str, bool). -/
inductive ScalarVal where
  | int (i : Int)
  | dec (m : Int) (s : Nat)
  | str (s : String)
  | bool (b : Bool)
deriving Repr, DecidableEq

/-- Modelled from the spec: `YangTypeError` carries the offending value
(`exceptions.py` defines it with no structured payload of its own). -/
structure YangTypeError where
  value : String
deriving Repr, DecidableEq

/-- Modelled from the spec: a bounded integer type of width 8/16/32/64,
signed or unsigned, with an optional narrowing range restriction (the
AND-composed restriction chain collapses to an interval intersection). -/
structure IntegralType where
  width : Nat
  signed : Bool
  range : Option (Int × Int)
deriving Repr, DecidableEq

/-- Lower bound of the two's-complement / unsigned base range. -/
def IntegralType.baseLo (t : IntegralType) : Int :=
  if t.signed then -(2 ^ (t.width - 1) : Int) else 0

/-- Upper bound of the two's-complement / unsigned base range. -/
def IntegralType.baseHi (t : IntegralType) : Int :=
  if t.signed then (2 ^ (t.width - 1) : Int) - 1 else (2 ^ t.width : Int) - 1

/-- Effective lower bound: base range narrowed by the declared restriction. -/
def IntegralType.lo (t : IntegralType) : Int :=
  match t.range with
  | some r => max t.baseLo r.1
  | none => t.baseLo

/-- Effective upper bound: base range narrowed by the declared restriction. -/
def IntegralType.hi (t : IntegralType) : Int :=
  match t.range with
  | some r => min t.baseHi r.2
  | none => t.baseHi

/-- Modelled from the spec: `contains` for an integral type is membership in
the effective (restriction-narrowed) range. -/
def IntegralType.containsInt (t : IntegralType) (i : Int) : Bool :=
  decide (t.lo ≤ i ∧ i ≤ t.hi)

/-- Modelled from the spec: decimal64 with its declared number of fraction
digits (1–18). -/
structure Decimal64Type where
  fractionDigits : Nat
deriving Repr, DecidableEq

/-- Rescale the exact decimal `m · 10 ^ (-s)` to `fd` fraction digits, when it
is representable there without loss: the scaled-integer numerator over
`10 ^ fd`, or `none` when low-order digits would be lost. -/
def rescaleDec (fd : Nat) (m : Int) (s : Nat) : Option Int :=
  if s ≤ fd then some (m * (10 : Int) ^ (fd - s))
  else if m % (10 : Int) ^ (s - fd) = 0 then some (m / (10 : Int) ^ (s - fd))
  else none

/-- Modelled from the spec: a decimal64 value space is the set of exact
decimals representable with the declared fraction digits whose scaled
64-bit integer numerator is in the two's-complement range. -/
def Decimal64Type.containsDec (t : Decimal64Type) (m : Int) (s : Nat) : Bool :=
  match rescaleDec t.fractionDigits m s with
  | some n => decide (-(2 ^ 63 : Int) ≤ n ∧ n ≤ (2 ^ 63 : Int) - 1)
  | none => false

/-- Exact (non-floating) equality of two decimals `m₁ · 10 ^ (-s₁)` and
`m₂ · 10 ^ (-s₂)`, by cross-multiplication. -/
def decEquiv (m1 : Int) (s1 : Nat) (m2 : Int) (s2 : Nat) : Bool :=
  decide (m1 * (10 : Int) ^ s2 = m2 * (10 : Int) ^ s1)

/-! ## String type: length bounds and anchored patterns (C5) -/

/-- Regular expressions over characters, sufficient for the declared YANG
patterns (XSD-style: `.` is any character, `\S` any non-whitespace). -/
inductive RegEx where
  | emp
  | eps
  | anyChar
  | nonSpace
  | lit (c : Char)
  | cat (r1 r2 : RegEx)
  | alt (r1 r2 : RegEx)
  | star (r : RegEx)
deriving Repr, DecidableEq

/-- XSD whitespace characters (`\s` = space, tab, newline, carriage return). -/
def isSpaceCh (c : Char) : Bool :=
  c = ' ' || c = '\t' || c = '\n' || c = '\r'

/-- Whether a regular expression accepts the empty string. -/
def RegEx.nullable : RegEx → Bool
  | .emp => false
  | .eps => true
  | .anyChar => false
  | .nonSpace => false
  | .lit _ => false
  | .cat r1 r2 => r1.nullable && r2.nullable
  | .alt r1 r2 => r1.nullable || r2.nullable
  | .star _ => true

/-- Brzozowski derivative of a regular expression by a character. -/
def RegEx.deriv : RegEx → Char → RegEx
  | .emp, _ => .emp
  | .eps, _ => .emp
  | .anyChar, _ => .eps
  | .nonSpace, c => if isSpaceCh c then .emp else .eps
  | .lit c0, c => if c = c0 then .eps else .emp
  | .cat r1 r2, c =>
      if r1.nullable then .alt (.cat (r1.deriv c) r2) (r2.deriv c)
      else .cat (r1.deriv c) r2
  | .alt r1 r2, c => .alt (r1.deriv c) (r2.deriv c)
  | .star r, c => .cat (r.deriv c) (.star r)

/-- Anchored match: the expression must consume the whole character list. -/
def RegEx.matches (r : RegEx) (cs : List Char) : Bool :=
  (cs.foldl RegEx.deriv r).nullable

/-- Modelled from the spec: a string type with optional code-point length
bounds and an ordered list of patterns (each anchored to the whole value). -/
structure StringType where
  length : Option (Nat × Nat)
  patterns : List RegEx
deriving Repr, DecidableEq

/-- Modelled from the spec: string `contains` enforces the declared length
bounds AND every declared pattern (patterns ANDed, each anchored). -/
def StringType.containsStr (t : StringType) (s : String) : Bool :=
  (match t.length with
   | some b => decide (b.1 ≤ s.data.length ∧ s.data.length ≤ b.2)
   | none => true)
  && t.patterns.all (fun r => r.matches s.data)

/-- The derived scalar type descriptors needed by the claims. -/
inductive Datatype where
  | integral (t : IntegralType)
  | decimal64 (t : Decimal64Type)
  | string (t : StringType)
  | boolean
deriving Repr, DecidableEq

/-- Whether a candidate has the internal kind that the type's value space is
drawn from (int for integral types, exact `Decimal` for decimal64, str for
string, bool for boolean). -/
def Datatype.kindMatches : Datatype → ScalarVal → Bool
  | .integral _, .int _ => true
  | .decimal64 _, .dec _ _ => true
  | .string _, .str _ => true
  | .boolean, .bool _ => true
  | _, _ => false

/-- Modelled from the spec: `contains(candidate)` is total over every
candidate value; a candidate of the wrong internal kind is simply not a
member of the value space. -/
def Datatype.contains : Datatype → ScalarVal → Bool
  | .integral t, .int i => t.containsInt i
  | .decimal64 t, .dec m s => t.containsDec m s
  | .string t, .str s => t.containsStr s
  | .boolean, .bool _ => true
  | _, _ => false

/-- C3: for every bounded integer type of width 8, 16, 32 or 64 (signed or
unsigned), `contains` is true at both endpoints of the type's declared range
and false one past each end. -/
theorem bounded_int_contains_boundaries (t : IntegralType)
    (hw : t.width ∈ [8, 16, 32, 64]) (hne : t.lo ≤ t.hi) :
    t.containsInt t.lo = true ∧ t.containsInt t.hi = true ∧
    t.containsInt (t.lo - 1) = false ∧ t.containsInt (t.hi + 1) = false := by
  simp only [IntegralType.containsInt, decide_eq_true_eq, decide_eq_false_iff_not,
    not_and, not_le]
  refine ⟨⟨le_refl _, hne⟩, ⟨hne, le_refl _⟩, ?_, ?_⟩ <;> omega

/-- Witness for C3 at the 16-bit signed type of the tests (`int16` with no
extra restriction: declared range -32768..32767). -/
theorem bounded_int_contains_boundaries_witness :
    ((⟨16, true, none⟩ : IntegralType).width ∈ [8, 16, 32, 64]
      ∧ (⟨16, true, none⟩ : IntegralType).lo ≤ (⟨16, true, none⟩ : IntegralType).hi)
    ∧ ((⟨16, true, none⟩ : IntegralType).containsInt (⟨16, true, none⟩ : IntegralType).lo = true
      ∧ (⟨16, true, none⟩ : IntegralType).containsInt (⟨16, true, none⟩ : IntegralType).hi = true
      ∧ (⟨16, true, none⟩ : IntegralType).containsInt ((⟨16, true, none⟩ : IntegralType).lo - 1) = false
      ∧ (⟨16, true, none⟩ : IntegralType).containsInt ((⟨16, true, none⟩ : IntegralType).hi + 1) = false) :=
  ⟨⟨by decide, by decide⟩,
    bounded_int_contains_boundaries ⟨16, true, none⟩ (by decide) (by decide)⟩

/-- C8: `contains` is total over arbitrary candidates — a candidate of the
wrong internal kind (a plain int offered to decimal64, a bool offered to an
integer type, ...) yields `false`; and the tests' concrete unrepresentable
candidates (`10` at decimal64, `-1` at uint16) yield `false`. -/
theorem contains_wrong_kind_false (d : Datatype) (v : ScalarVal)
    (h : d.kindMatches v = false) :
    d.contains v = false
    ∧ (Datatype.decimal64 ⟨18⟩).contains (.int 10) = false
    ∧ (Datatype.integral ⟨16, false, none⟩).contains (.int (-1)) = false := by
  refine ⟨?_, by decide, by decide⟩
  cases d <;> cases v <;> simp_all [Datatype.kindMatches, Datatype.contains]

/-- Witness for C8 at a plain int offered to a decimal64 type. -/
theorem contains_wrong_kind_false_witness :
    (Datatype.decimal64 ⟨18⟩).kindMatches (.int 10) = false
    ∧ ((Datatype.decimal64 ⟨18⟩).contains (.int 10) = false
      ∧ (Datatype.decimal64 ⟨18⟩).contains (.int 10) = false
      ∧ (Datatype.integral ⟨16, false, none⟩).contains (.int (-1)) = false) :=
  ⟨by decide, contains_wrong_kind_false (Datatype.decimal64 ⟨18⟩) (.int 10) (by decide)⟩

/-- The string type of C5's scenario: length 2..10, single pattern `\S.*`. -/
def scenarioStringType : StringType :=
  ⟨some (2, 10), [RegEx.cat RegEx.nonSpace (RegEx.star RegEx.anyChar)]⟩

/-- C5: with length 2..10 and pattern `\S.*`, `contains` rejects
`"hello world"` (11 code points, though it matches the pattern), rejects
`"h"` (1 code point, though it matches the pattern), and accepts
`"9 \tx"` (length 4, matches the pattern). -/
theorem string_contains_length_and_patterns :
    (Datatype.string scenarioStringType).contains (.str "hello world") = false
    ∧ RegEx.matches (RegEx.cat RegEx.nonSpace (RegEx.star RegEx.anyChar))
        "hello world".data = true
    ∧ (Datatype.string scenarioStringType).contains (.str "h") = false
    ∧ RegEx.matches (RegEx.cat RegEx.nonSpace (RegEx.star RegEx.anyChar))
        "h".data = true
    ∧ (Datatype.string scenarioStringType).contains (.str "9 \tx") = true := by
  decide

/-! ## Lexical forms and `from_raw` (C2, C4) -/

/-- ASCII decimal digit (code points 48-57). -/
def isDigitCh (c : Char) : Bool := 48 ≤ c.toNat && c.toNat ≤ 57

/-- Numeric value of a digit sequence, most significant digit first. -/
def digitsVal (ds : List Char) : Nat :=
  ds.foldl (fun a c => 10 * a + (c.toNat - 48)) 0

/-- Leading-sign split of a numeral: `true` means negative. -/
def splitSign : List Char → Bool × List Char
  | '+' :: r => (false, r)
  | '-' :: r => (true, r)
  | cs => (false, cs)

/-- Split of an integer lexical form: an optional sign followed by a
nonempty digit sequence (the lexical representation shared by the signed and
unsigned integer categories). -/
def intLexicalSplit (cs : List Char) : Option (Bool × List Char) :=
  let p := splitSign cs
  if p.2 ≠ [] ∧ p.2.all isDigitCh then some p else none

/-- Whether a string is a well-formed lexical form of the integer base
category. -/
def wellFormedIntLexical (s : String) : Bool :=
  (intLexicalSplit s.data).isSome

/-- The integer denoted by a well-formed lexical form. -/
def parseIntLexical (s : String) : Option Int :=
  (intLexicalSplit s.data).map fun p =>
    if p.1 then -(digitsVal p.2 : Int) else (digitsVal p.2 : Int)

/-- Whether an `Except` result is the error case. -/
def exceptIsError {ε α : Type} : Except ε α → Bool
  | .error _ => true
  | .ok _ => false

/-- Modelled from the spec (§4.2, `from_raw`/`parse_value` for integral
types, which are absent from the source tree), with the error condition
pinned by the repository's tests: the external string is converted to an
int, raising `YangTypeError` on a malformed lexical form, and — as
`tests/test_model.py` requires of `ui64.from_raw("-6378")` (lines 105-106)
and `ld.type.parse_value("99")` (lines 70-71) — also when the well-formed
numeral denotes a value outside the type's value space. -/
def IntegralType.from_raw (t : IntegralType) (raw : String) : Except YangTypeError Int :=
  match parseIntLexical raw with
  | none => .error ⟨raw⟩
  | some v => if t.containsInt v then .ok v else .error ⟨raw⟩

/-- `parse_value` has the same contract as `from_raw` on external strings. -/
def IntegralType.parse_value (t : IntegralType) (raw : String) : Except YangTypeError Int :=
  t.from_raw raw

/-- C2 counterexample: the claim "`from_raw` raises `YangTypeError` only
when the string is not a well-formed lexical form for the base category" is
false — `"-6378"` is a well-formed integer numeral, yet uint64 `from_raw`
yields `YangTypeError` (as the repository's own test requires), because the
value violates the declared range, a mere restriction. -/
theorem from_raw_error_not_only_malformed :
    ¬ (∀ (t : IntegralType) (s : String),
        exceptIsError (t.from_raw s) = true → wellFormedIntLexical s = false) :=
  fun h => absurd (h ⟨64, false, none⟩ "-6378" (by decide)) (by decide)

/-- C2 amended: `from_raw` raises `YangTypeError` exactly when the lexical
form is malformed for the integer base category or the denoted value lies
outside the type's value space (range restrictions included); it never
raises on a well-formed, contained value. -/
theorem from_raw_error_iff_malformed_or_not_contained
    (t : IntegralType) (s : String) :
    exceptIsError (t.from_raw s) = true ↔
      (wellFormedIntLexical s = false
        ∨ ∃ v, parseIntLexical s = some v ∧ t.containsInt v = false) := by
  unfold IntegralType.from_raw wellFormedIntLexical parseIntLexical
  cases hsp : intLexicalSplit s.data with
  | none => simp [hsp, exceptIsError]
  | some p =>
      cases hc : t.containsInt (if p.1 then -(digitsVal p.2 : Int) else (digitsVal p.2 : Int)) <;>
        simp [hsp, hc, exceptIsError]

/-- Split of a decimal64 lexical form: optional sign, a nonempty integer
digit sequence, optionally followed by a period and a nonempty fraction
digit sequence. -/
def decLexicalSplit (cs : List Char) : Option (Bool × List Char × List Char) :=
  let p := splitSign cs
  let ip := p.2.takeWhile isDigitCh
  let rest := p.2.dropWhile isDigitCh
  if ip = [] then none
  else match rest with
    | [] => some (p.1, ip, [])
    | '.' :: fr => if fr ≠ [] ∧ fr.all isDigitCh then some (p.1, ip, fr) else none
    | _ => none

/-- Modelled from the spec (§4.2 numeric contracts; `datatype.py` is absent
from the source tree): decimal64 `from_raw` converts the lexical form to the
exact fixed-point value with the declared number of fraction digits,
truncating any extra fraction digits, in exact integer arithmetic; a
malformed form or a value outside the 64-bit scaled range raises
`YangTypeError`. -/
def Decimal64Type.from_raw (t : Decimal64Type) (raw : String) :
    Except YangTypeError ScalarVal :=
  match decLexicalSplit raw.data with
  | none => .error ⟨raw⟩
  | some (neg, ip, fr) =>
      let fd := t.fractionDigits
      let frT := fr.take fd
      let mag : Nat := digitsVal ip * 10 ^ fd + digitsVal frT * 10 ^ (fd - frT.length)
      let n : Int := if neg then -(mag : Int) else (mag : Int)
      if t.containsDec n fd then .ok (.dec n fd) else .error ⟨raw⟩

/-- The exact decimal denoted by (sign, integer digits, fraction digits),
truncated toward zero to `fd` fraction digits, expressed as the scaled
integer numerator over `10 ^ fd` (the reference value the claim compares
against, written with exact rational truncation). -/
def truncatedScaled (neg : Bool) (ip fr : List Char) (fd : Nat) : Int :=
  let mag : Nat := (digitsVal ip * 10 ^ fr.length + digitsVal fr) * 10 ^ fd / 10 ^ fr.length
  if neg then -(mag : Int) else (mag : Int)

/-- Folding the digit-accumulation step from an arbitrary accumulator. -/
theorem digitsVal_foldl_init (l : List Char) :
    ∀ a : Nat, List.foldl (fun b c => 10 * b + (c.toNat - 48)) a l
      = a * 10 ^ l.length + digitsVal l := by
  induction l with
  | nil => intro a; simp [digitsVal]
  | cons c cs ih =>
      intro a
      simp only [List.foldl_cons, List.length_cons, digitsVal]
      rw [ih (10 * a + (c.toNat - 48)), ih (10 * 0 + (c.toNat - 48))]
      ring

/-- Digit-sequence value of a concatenation. -/
theorem digitsVal_append (xs ys : List Char) :
    digitsVal (xs ++ ys) = digitsVal xs * 10 ^ ys.length + digitsVal ys := by
  simp only [digitsVal, List.foldl_append]
  rw [digitsVal_foldl_init ys (List.foldl (fun b c => 10 * b + (c.toNat - 48)) 0 xs)]
  rfl

/-- A sequence of decimal digits denotes a value below `10 ^ length`. -/
theorem digitsVal_lt (l : List Char) (h : l.all isDigitCh = true) :
    digitsVal l < 10 ^ l.length := by
  induction l with
  | nil => simp [digitsVal]
  | cons c cs ih =>
      simp only [List.all_cons, Bool.and_eq_true] at h
      have hc : c.toNat - 48 ≤ 9 := by
        have := h.1
        simp only [isDigitCh, Bool.and_eq_true, decide_eq_true_eq] at this
        omega
      have hcs := ih h.2
      have hstep : digitsVal (c :: cs) = (c.toNat - 48) * 10 ^ cs.length + digitsVal cs := by
        show List.foldl (fun a c => 10 * a + (c.toNat - 48)) 0 (c :: cs) = _
        rw [List.foldl_cons, digitsVal_foldl_init cs (10 * 0 + (c.toNat - 48))]
        ring_nf
      rw [hstep, List.length_cons, pow_succ]
      nlinarith

/-- Truncating a digit sequence to `fd` digits computes exactly the floor of
the denoted fraction scaled to `fd` digits. -/
theorem digitsVal_take_div (fr : List Char) (hd : fr.all isDigitCh = true) (fd : Nat) :
    digitsVal (fr.take fd) * 10 ^ (fd - (fr.take fd).length)
      = digitsVal fr * 10 ^ fd / 10 ^ fr.length := by
  by_cases h : fr.length ≤ fd
  · rw [List.take_of_length_le h]
    rw [show (10 : Nat) ^ fd = 10 ^ (fd - fr.length) * 10 ^ fr.length by
      rw [← pow_add]; congr 1; omega]
    rw [← mul_assoc, Nat.mul_div_cancel _ (pow_pos (by norm_num) _)]
  · push_neg at h
    have hlen : (fr.take fd).length = fd := by
      rw [List.length_take]; omega
    have hdrop : (fr.drop fd).all isDigitCh = true := by
      rw [List.all_eq_true] at hd ⊢
      exact fun c hc => hd c (List.drop_subset fd fr hc)
    have hsplit := List.take_append_drop fd fr
    have hval : digitsVal fr
        = digitsVal (fr.take fd) * 10 ^ (fr.drop fd).length + digitsVal (fr.drop fd) := by
      conv_lhs => rw [← hsplit]
      exact digitsVal_append _ _
    have hlt := digitsVal_lt (fr.drop fd) hdrop
    have hlens : fr.length = fd + (fr.drop fd).length := by
      conv_lhs => rw [← hsplit]
      rw [List.length_append, hlen]
    rw [hval, hlen, Nat.sub_self, pow_zero, mul_one, hlens]
    set k := (fr.drop fd).length with hk
    rw [show (10 : Nat) ^ (fd + k) = 10 ^ k * 10 ^ fd by rw [← pow_add]; ring_nf,
      Nat.mul_div_mul_right _ _ (pow_pos (by norm_num) fd),
      show digitsVal (fr.take fd) * 10 ^ k + digitsVal (fr.drop fd)
        = 10 ^ k * digitsVal (fr.take fd) + digitsVal (fr.drop fd) by ring,
      Nat.mul_add_div (pow_pos (by norm_num) k), Nat.div_eq_of_lt hlt, add_zero]

/-- A successful decimal lexical split yields a digit-only fraction part. -/
theorem decLexicalSplit_digits (cs : List Char) (neg : Bool) (ip fr : List Char)
    (h : decLexicalSplit cs = some (neg, ip, fr)) : fr.all isDigitCh = true := by
  simp only [decLexicalSplit] at h
  split at h
  · exact absurd h (by simp)
  · split at h
    · simp only [Option.some.injEq, Prod.mk.injEq] at h
      obtain ⟨-, -, rfl⟩ := h
      rfl
    · split at h
      · rename_i hcond
        simp only [Option.some.injEq, Prod.mk.injEq] at h
        obtain ⟨-, -, rfl⟩ := h
        exact hcond.2
      · exact absurd h (by simp)
    · exact absurd h (by simp)

/-- An `if` producing `ok` on one branch and `error` on the other equals an
`ok` value only via the `ok` branch. -/
theorem ite_ok_inj {c : Prop} [Decidable c] {x y : ScalarVal} {e : YangTypeError}
    (h : (if c then Except.ok x else Except.error e) = Except.ok y) : x = y := by
  split at h
  · exact Except.ok.inj h
  · exact absurd h (by simp)

/-- C4: decimal64 `from_raw` is exact fixed-point truncation — whenever it
succeeds on a lexical decimal, the scaled result is exactly the decimal
denoted by the text truncated to the declared number of fraction digits
(computed in exact integer arithmetic, no floating point); in particular the
35-fraction-digit pi literal at scale 18 yields exactly
Decimal("3.141592653589793238"), i.e. the scaled integer
3141592653589793238 over 10^18. -/
theorem decimal64_from_raw_exact_truncation :
    (∀ (t : Decimal64Type) (raw : String) (neg : Bool) (ip fr : List Char) (n : Int),
        decLexicalSplit raw.data = some (neg, ip, fr) →
        t.from_raw raw = .ok (.dec n t.fractionDigits) →
        n = truncatedScaled neg ip fr t.fractionDigits)
    ∧ Decimal64Type.from_raw ⟨18⟩ "3.14159265358979323846264338327950288"
        = .ok (.dec 3141592653589793238 18) := by
  constructor
  · intro t raw neg ip fr n hsplit hok
    have hfr := decLexicalSplit_digits raw.data neg ip fr hsplit
    unfold Decimal64Type.from_raw at hok
    simp only [hsplit] at hok
    have key := digitsVal_take_div fr hfr t.fractionDigits
    have hmag : digitsVal ip * 10 ^ t.fractionDigits
          + digitsVal (fr.take t.fractionDigits)
            * 10 ^ (t.fractionDigits - (fr.take t.fractionDigits).length)
        = (digitsVal ip * 10 ^ fr.length + digitsVal fr)
            * 10 ^ t.fractionDigits / 10 ^ fr.length := by
      rw [key, add_mul,
        show digitsVal ip * 10 ^ fr.length * 10 ^ t.fractionDigits
          = 10 ^ fr.length * (digitsVal ip * 10 ^ t.fractionDigits) by ring,
        Nat.mul_add_div (pow_pos (by norm_num) fr.length)]
    obtain ⟨h1, -⟩ := ScalarVal.dec.inj (ite_ok_inj hok)
    subst h1
    unfold truncatedScaled
    cases neg <;>
      simp only [Bool.false_eq_true, if_false, if_true, ite_true, ite_false] <;>
      rw [hmag]
  · rfl

/-- Witness for C4 at the pi literal of the tests: the general truncation
theorem applied at scale 18 to the 35-fraction-digit literal. -/
theorem decimal64_from_raw_exact_truncation_witness :
    (3141592653589793238 : Int)
      = truncatedScaled false "3".data
          "14159265358979323846264338327950288".data 18 :=
  decimal64_from_raw_exact_truncation.1 ⟨18⟩
    "3.14159265358979323846264338327950288"
    false "3".data "14159265358979323846264338327950288".data
    3141592653589793238 (by decide) decimal64_from_raw_exact_truncation.2

/-! ## Effective defaults of leaf / leaf-list nodes (C6) -/

/-- Default values attachable to leaf and leaf-list nodes (a leaf-list's own
default is a list of scalars, as in the tests' `[42, 54]`). -/
inductive DefaultVal where
  | scalar (v : ScalarVal)
  | listOf (vs : List ScalarVal)
deriving Repr, DecidableEq

/-- Modelled from the spec (§4.2 `default()` and §8; `schemanode.py` is
absent from the source tree): the two inputs determining a leaf / leaf-list
node's effective default — the node's own optional `default` statement and
its resolved type's optional default. -/
structure LeafNode where
  declDefault : Option DefaultVal
  typeDefault : Option DefaultVal
deriving Repr, DecidableEq

/-- Modelled from the spec: the node's effective default is its own declared
default when present, else its type's default. -/
def LeafNode.default (n : LeafNode) : Option DefaultVal :=
  match n.declDefault with
  | some v => some v
  | none => n.typeDefault

/-- C6: a leaf/leaf-list node that declares no default reports its type's
default as its effective default; a node with an explicit default reports
that explicit value regardless of the type default. -/
theorem leaf_default_fallback (n : LeafNode) :
    (n.declDefault = none → n.default = n.typeDefault)
    ∧ (∀ v, n.declDefault = some v → n.default = some v) := by
  constructor
  · intro h
    simp [LeafNode.default, h]
  · intro v h
    simp [LeafNode.default, h]

/-- Witness for C6 at the tests' values: `leafD` (type default 111, declared
default 199) reports 199; a node with no declared default but the same type
reports 111. -/
theorem leaf_default_fallback_witness :
    ((LeafNode.mk none (some (.scalar (.int 111)))).declDefault = none
      ∧ (LeafNode.mk none (some (.scalar (.int 111)))).default
          = some (.scalar (.int 111)))
    ∧ ((LeafNode.mk (some (.scalar (.int 199))) (some (.scalar (.int 111)))).declDefault
          = some (.scalar (.int 199))
      ∧ (LeafNode.mk (some (.scalar (.int 199))) (some (.scalar (.int 111)))).default
          = some (.scalar (.int 199))) :=
  ⟨⟨rfl, (leaf_default_fallback (LeafNode.mk none (some (.scalar (.int 111))))).1 rfl⟩,
   ⟨rfl, (leaf_default_fallback
      (LeafNode.mk (some (.scalar (.int 199))) (some (.scalar (.int 111))))).2
        (.scalar (.int 199)) rfl⟩⟩

/-! ## Schema tree builder: config inheritance (C1)

The builder module is absent from the source tree; modelled from the spec
(§4.3 step 2: "Compute `config` by inheritance from parent, rejecting
`config=true` declared under a `config=false` ancestor"), pinned by
`tests/test_model.py` lines 57-59 (inherited and explicitly-declared flags).
-/

mutual
/-- A statement subtree as the builder sees it: an optional explicit
`config` declaration, and child statements. -/
inductive CfgStmt where
  | node (declConfig : Option Bool) (children : CfgForest)
inductive CfgForest where
  | nil
  | cons (s : CfgStmt) (rest : CfgForest)
end

mutual
/-- A built schema subtree with its computed `config` flags. -/
inductive CfgNode where
  | node (config : Bool) (children : CfgNodeForest)
inductive CfgNodeForest where
  | nil
  | cons (n : CfgNode) (rest : CfgNodeForest)
end

/-- Build-time rejection: `config=true` declared under `config=false`. -/
inductive BuildError where
  | configMix
deriving Repr, DecidableEq

/-- The computed `config` flag of a built node. -/
def CfgNode.config : CfgNode → Bool
  | .node c _ => c

/-- Modelled from the spec: the effective `config` of one node — an explicit
declaration wins, except that `config=true` under a `config=false` parent is
a build error; without a declaration the parent's flag is inherited. -/
def effectiveConfig (parentConfig : Bool) (dc : Option Bool) : Except BuildError Bool :=
  match dc with
  | some true => if parentConfig then .ok true else .error .configMix
  | some false => .ok false
  | none => .ok parentConfig

mutual
/-- Modelled from the spec: top-down build computing `config` by
inheritance (§4.3 step 2). -/
def buildCfg (parentConfig : Bool) : CfgStmt → Except BuildError CfgNode
  | .node dc cs =>
      match effectiveConfig parentConfig dc with
      | .error e => .error e
      | .ok cfg =>
          match buildCfgForest cfg cs with
          | .ok ch => .ok (.node cfg ch)
          | .error e => .error e

/-- Builds each child statement under the computed parent flag. -/
def buildCfgForest (parentConfig : Bool) : CfgForest → Except BuildError CfgNodeForest
  | .nil => .ok .nil
  | .cons s rest =>
      match buildCfg parentConfig s with
      | .ok n =>
          match buildCfgForest parentConfig rest with
          | .ok ns => .ok (.cons n ns)
          | .error e => .error e
      | .error e => .error e
end

mutual
/-- All strict descendants of a built node. -/
def subnodes : CfgNode → List CfgNode
  | .node _ ch => subnodesForest ch

/-- All nodes of a built forest, each with its own descendants. -/
def subnodesForest : CfgNodeForest → List CfgNode
  | .nil => []
  | .cons n rest => n :: (subnodes n ++ subnodesForest rest)
end

/-- Inheritance invariant on a built subtree: every node in it (the root
included) that reports `config=false` has only `config=false` descendants. -/
def inheritOK (t : CfgNode) : Prop :=
  ∀ u, (u = t ∨ u ∈ subnodes t) → u.config = false →
    ∀ v ∈ subnodes u, v.config = false

/-- A subtree that is entirely `config=false`. -/
def allFalse (t : CfgNode) : Prop :=
  t.config = false ∧ ∀ v ∈ subnodes t, v.config = false

/-- Top-level nodes of a built forest. -/
def CfgNodeForest.toList : CfgNodeForest → List CfgNode
  | .nil => []
  | .cons n rest => n :: rest.toList

/-- Membership in a forest's descendant set decomposes along its top-level
nodes. -/
theorem mem_subnodesForest (v : CfgNode) (f : CfgNodeForest) :
    v ∈ subnodesForest f ↔ ∃ n ∈ f.toList, v = n ∨ v ∈ subnodes n := by
  cases f with
  | nil => simp [subnodesForest, CfgNodeForest.toList]
  | cons n rest =>
      have ih := mem_subnodesForest v rest
      simp only [subnodesForest, CfgNodeForest.toList, List.mem_cons, List.mem_append, ih]
      constructor
      · rintro (h | h | ⟨m, hm, hv⟩)
        · exact ⟨n, Or.inl rfl, Or.inl h⟩
        · exact ⟨n, Or.inl rfl, Or.inr h⟩
        · exact ⟨m, Or.inr hm, hv⟩
      · rintro ⟨m, (h1 | hm), hv⟩
        · subst h1
          rcases hv with h | hv
          · exact Or.inl h
          · exact Or.inr (Or.inl hv)
        · exact Or.inr (Or.inr ⟨m, hm, hv⟩)

/-- Under a `config=false` parent the computed flag is `false` whenever the
build step succeeds. -/
theorem effectiveConfig_false (dc : Option Bool) (cfg : Bool)
    (h : effectiveConfig false dc = .ok cfg) : cfg = false := by
  cases dc with
  | none => simpa [effectiveConfig] using h.symm
  | some b =>
      cases b
      · simpa [effectiveConfig] using h.symm
      · simp [effectiveConfig] at h

mutual
/-- Soundness of the `config` computation for one statement: the built
subtree satisfies the inheritance invariant, and under a `config=false`
parent the whole built subtree reports `config=false`. -/
theorem buildCfg_sound (s : CfgStmt) :
    ∀ (pc : Bool) (t : CfgNode), buildCfg pc s = .ok t →
      inheritOK t ∧ (pc = false → allFalse t) := by
  cases s with
  | node dc cs =>
      intro pc t h
      unfold buildCfg at h
      cases hec : effectiveConfig pc dc with
      | error e => simp [hec] at h
      | ok cfg =>
          simp only [hec] at h
          cases hf : buildCfgForest cfg cs with
          | error e => simp [hf] at h
          | ok ch =>
              simp only [hf] at h
              obtain rfl := Except.ok.inj h
              have hB := buildCfgForest_sound cs cfg ch hf
              constructor
              · intro u hu hufalse v hv
                rcases hu with rfl | hu
                · have hcfg : cfg = false := hufalse
                  rw [show subnodes (CfgNode.node cfg ch) = subnodesForest ch from rfl,
                    mem_subnodesForest] at hv
                  obtain ⟨n, hn, hvn⟩ := hv
                  have hAF := (hB n hn).2 hcfg
                  rcases hvn with rfl | hvn
                  · exact hAF.1
                  · exact hAF.2 v hvn
                · rw [show subnodes (CfgNode.node cfg ch) = subnodesForest ch from rfl,
                    mem_subnodesForest] at hu
                  obtain ⟨n, hn, hun⟩ := hu
                  have hIO := (hB n hn).1
                  rcases hun with rfl | hun
                  · exact hIO u (Or.inl rfl) hufalse v hv
                  · exact hIO u (Or.inr hun) hufalse v hv
              · intro hpc
                subst hpc
                have hcfg := effectiveConfig_false dc cfg hec
                subst hcfg
                refine ⟨rfl, ?_⟩
                intro v hv
                rw [show subnodes (CfgNode.node false ch) = subnodesForest ch from rfl,
                  mem_subnodesForest] at hv
                obtain ⟨n, hn, hvn⟩ := hv
                have hAF := (hB n hn).2 rfl
                rcases hvn with rfl | hvn
                · exact hAF.1
                · exact hAF.2 v hvn

/-- Soundness of the `config` computation for a sibling list. -/
theorem buildCfgForest_sound (f : CfgForest) :
    ∀ (pc : Bool) (ts : CfgNodeForest), buildCfgForest pc f = .ok ts →
      ∀ n ∈ ts.toList, inheritOK n ∧ (pc = false → allFalse n) := by
  cases f with
  | nil =>
      intro pc ts h
      unfold buildCfgForest at h
      obtain rfl := Except.ok.inj h
      intro n hn
      exact absurd hn (by simp [CfgNodeForest.toList])
  | cons s rest =>
      intro pc ts h
      unfold buildCfgForest at h
      cases hn : buildCfg pc s with
      | error e => simp [hn] at h
      | ok n =>
          simp only [hn] at h
          cases hr : buildCfgForest pc rest with
          | error e => simp [hr] at h
          | ok ns =>
              simp only [hr] at h
              obtain rfl := Except.ok.inj h
              intro m hm
              rcases List.mem_cons.mp hm with rfl | hm
              · exact buildCfg_sound s pc m hn
              · exact buildCfgForest_sound rest pc ns hr m hm
end

/-- C1: in every successfully built schema subtree, every node reporting
`config=false` has only `config=false` descendants; and a statement that
declares `config=true` under a `config=false` ancestor is rejected at build
time with a build error. -/
theorem config_false_inheritance (s : CfgStmt) (pc : Bool) (t : CfgNode)
    (h : buildCfg pc s = .ok t) (cs : CfgForest) :
    (∀ u, (u = t ∨ u ∈ subnodes t) → u.config = false →
        ∀ v ∈ subnodes u, v.config = false)
    ∧ buildCfg false (CfgStmt.node (some true) cs) = .error .configMix :=
  ⟨(buildCfg_sound s pc t h).1, by simp [buildCfg, effectiveConfig]⟩

/-- Concrete statement tree for the C1 witness: `config=false` declared on a
node whose only child declares nothing. -/
def cfgStmtW : CfgStmt :=
  CfgStmt.node (some false) (CfgForest.cons (CfgStmt.node none CfgForest.nil) CfgForest.nil)

/-- The tree the builder produces from `cfgStmtW` under a `config=true`
parent: the child inherits `config=false`. -/
def cfgNodeW : CfgNode :=
  CfgNode.node false (CfgNodeForest.cons (CfgNode.node false CfgNodeForest.nil) CfgNodeForest.nil)

/-- Witness for C1 at the concrete tree `cfgStmtW`. -/
theorem config_false_inheritance_witness :
    buildCfg true cfgStmtW = .ok cfgNodeW
    ∧ ((∀ u, (u = cfgNodeW ∨ u ∈ subnodes cfgNodeW) → u.config = false →
          ∀ v ∈ subnodes u, v.config = false)
      ∧ buildCfg false (CfgStmt.node (some true) CfgForest.nil)
          = .error .configMix) :=
  ⟨by simp [cfgStmtW, cfgNodeW, buildCfg, buildCfgForest, effectiveConfig],
   config_false_inheritance cfgStmtW true cfgNodeW
     (by simp [cfgStmtW, cfgNodeW, buildCfg, buildCfgForest, effectiveConfig])
     CfgForest.nil⟩

/-! ## Schema tree lookup (C7, C9)

`get_data_node` / `get_schema_node` / `get_schema_descendant` live in
modules absent from the source tree; modelled from the spec (§4.3 lookup
contract, §4.3 step 1 for if-feature removal), pinned by
`tests/test_model.py` lines 45-50 and 78-81.
-/

/-- Schema node categories (spec §3 "SchemaNode"). -/
inductive NodeKind where
  | container
  | leaf
  | leafList
  | listNode
  | choice
  | caseNode
  | rpc
  | inputNode
  | outputNode
  | notificationNode
  | anydata
  | anyxml
deriving Repr, DecidableEq

/-- Whether the category is a plain data node (addressable on data paths);
choice/case layers and rpc/input/output/notification structure are not. -/
def NodeKind.isDataNode : NodeKind → Bool
  | .container | .leaf | .leafList | .listNode | .anydata | .anyxml => true
  | _ => false

mutual
/-- A built schema node: name, category, children.  Nodes removed by a
false if-feature guard are never present (spec §4.3 step 1). -/
inductive SNode where
  | mk (name : String) (kind : NodeKind) (children : SForest)
inductive SForest where
  | nil
  | cons (n : SNode) (rest : SForest)
end

/-- The node's local name. -/
def SNode.name : SNode → String
  | .mk nm _ _ => nm

/-- The node's category. -/
def SNode.kind : SNode → NodeKind
  | .mk _ k _ => k

/-- The node's children. -/
def SNode.children : SNode → SForest
  | .mk _ _ ch => ch

/-- First schema child with the given name, searching all children. -/
def SForest.findByName : SForest → String → Option SNode
  | .nil, _ => none
  | .cons n rest, nm => if n.name = nm then some n else rest.findByName nm

mutual
/-- Data children contributed by one schema child: a data node stands for
itself; a choice/case layer is transparent and contributes its own data
children; rpc/input/output/notification structure contributes none. -/
def SNode.dataContrib : SNode → List SNode
  | .mk nm k ch =>
      if k.isDataNode then [SNode.mk nm k ch]
      else if k = .choice ∨ k = .caseNode then SForest.dataChildren ch
      else []

/-- The data children of a forest of schema children. -/
def SForest.dataChildren : SForest → List SNode
  | .nil => []
  | .cons n rest => n.dataContrib ++ rest.dataChildren
end

/-- Modelled from the spec: `get_schema_node` follows the path steps through
all schema children (rpc input/output and notification included). -/
def get_schema_node (f : SForest) : List String → Option SNode
  | [] => none
  | [nm] => f.findByName nm
  | nm :: rest =>
      match f.findByName nm with
      | some n => get_schema_node n.children rest
      | none => none

/-- Modelled from the spec: `get_data_node` follows the path steps through
data children only (choice/case transparent, rpc/notification structure and
feature-removed nodes invisible); any failure yields absence (`none`),
never an exception. -/
def get_data_node (f : SForest) : List String → Option SNode
  | [] => none
  | nm :: rest =>
      match (SForest.dataChildren f).find? (fun n => n.name == nm) with
      | some n => if rest.isEmpty then some n else get_data_node n.children rest
      | none => none

/-- Modelled from the spec: descendant lookup from a node over a pre-parsed
route of name steps. -/
def SNode.get_schema_descendant (n : SNode) (route : List String) : Option SNode :=
  get_schema_node n.children route

mutual
/-- A schema statement with an optional if-feature guard (spec §4.3 step 1). -/
inductive FStmt where
  | mk (name : String) (kind : NodeKind) (guard : Option String) (children : FForest)
inductive FForest where
  | fnil
  | fcons (s : FStmt) (rest : FForest)
end

mutual
/-- Modelled from the spec: building resolves if-feature guards first — a
node whose guard names a disabled feature is omitted entirely, subtree
included, never materialized and never visible to any query. -/
def buildFeat (enabled : List String) : FStmt → Option SNode
  | .mk nm k g ch =>
      match g with
      | some f =>
          if enabled.contains f then some (SNode.mk nm k (buildFeatForest enabled ch))
          else none
      | none => some (SNode.mk nm k (buildFeatForest enabled ch))

/-- Builds the children that survive their feature guards, in order. -/
def buildFeatForest (enabled : List String) : FForest → SForest
  | .fnil => .nil
  | .fcons s rest =>
      match buildFeat enabled s with
      | some n => .cons n (buildFeatForest enabled rest)
      | none => buildFeatForest enabled rest
end

/-- The statement fragment of the tests' schema needed by C7: `contA`
containing `listA` containing `contD` with `contE/leafP` and a
feature-guarded `leafM`, plus a top-level notification `noA` with `leafO`. -/
def testStmts : FForest :=
  .fcons (.mk "contA" .container none
    (.fcons (.mk "listA" .listNode none
      (.fcons (.mk "contD" .container none
        (.fcons (.mk "contE" .container none
          (.fcons (.mk "leafP" .leaf none .fnil) .fnil))
        (.fcons (.mk "leafM" .leaf (some "feM") .fnil) .fnil)))
      .fnil))
    .fnil))
  (.fcons (.mk "noA" .notificationNode none
    (.fcons (.mk "leafO" .leaf none .fnil) .fnil))
  .fnil)

/-- C7: `get_data_node` yields absence (`none`, never an exception) both for
a node removed by a false if-feature guard (`leafM`) — which reappears once
the feature is enabled — and for a node that is structurally present in the
schema but not a plain data node (`leafO` under notification `noA`, which
`get_schema_node` still returns). -/
theorem get_data_node_absence :
    ((get_data_node (buildFeatForest [] testStmts)
        ["contA", "listA", "contD", "leafM"]).map SNode.name = none)
    ∧ ((get_data_node (buildFeatForest ["feM"] testStmts)
        ["contA", "listA", "contD", "leafM"]).map SNode.name = some "leafM")
    ∧ ((get_data_node (buildFeatForest [] testStmts)
        ["noA", "leafO"]).map SNode.name = none)
    ∧ ((get_schema_node (buildFeatForest [] testStmts)
        ["noA", "leafO"]).map SNode.name = some "leafO") := by
  refine ⟨?_, ?_, ?_, ?_⟩ <;> rfl

/-- C9: for a list whose key leaf sequence is (leafF, leafG), the schema
descendant for the key-route steps after the first resolves directly to
leafG's schema node. -/
theorem key_route_second_step_resolves (f g : String) (hne : f ≠ g) :
    ((SNode.mk "lst" .listNode
        (.cons (SNode.mk f .leaf .nil)
          (.cons (SNode.mk g .leaf .nil) .nil))).get_schema_descendant
      ([f, g].drop 1)).map SNode.name = some g := by
  simp [SNode.get_schema_descendant, get_schema_node, SForest.findByName,
    SNode.name, SNode.children, hne]

/-- Witness for C9 at the key names of the scenario. -/
theorem key_route_second_step_resolves_witness :
    ("leafF" : String) ≠ "leafG"
    ∧ ((SNode.mk "lst" .listNode
        (.cons (SNode.mk "leafF" .leaf .nil)
          (.cons (SNode.mk "leafG" .leaf .nil) .nil))).get_schema_descendant
      (["leafF", "leafG"].drop 1)).map SNode.name = some "leafG" :=
  ⟨by decide, key_route_second_step_resolves "leafF" "leafG" (by decide)⟩
